import Mathlib

/-!
Shallow embedding of the folder-tree subsystem of the multi-tenant file
management backend: the folder route handlers (get/children/descendants/
ancestors/create/delete/rename), the tenant provisioning transaction, and
the tenant-access middleware, together with the storage-level uniqueness
constraint on (parentId, name, tenantId).

Paths are stored as the ltree text the code writes (segments joined by a
dot); ltree predicates (`<@`, `@>`, `nlevel`, ordering) are modelled on the
segment list obtained by splitting at the separator.
-/

namespace FsTree

/-- Error/response taxonomy of the route handlers.  `STORAGE_FAILURE` is the
generic catch-all 500 response a handler returns when the storage layer
throws. -/
inductive Err where
  | INVALID_INPUT
  | NOT_FOUND
  | DUPLICATE_NAME
  | CANNOT_DELETE_ROOT
  | PERMISSION_DENIED
  | STORAGE_FAILURE
deriving DecidableEq

/-- HTTP status each taxonomy member is returned with in the handlers. -/
def Err.status : Err → Nat
  | .INVALID_INPUT => 400
  | .NOT_FOUND => 404
  | .DUPLICATE_NAME => 409
  | .CANNOT_DELETE_ROOT => 403
  | .PERMISSION_DENIED => 403
  | .STORAGE_FAILURE => 500

/-- A row of the `Folder` table. -/
structure Folder where
  id : String
  name : String
  parentId : Option String
  tenantId : String
  path : String
deriving DecidableEq

/-- A row of the `File` table (only the columns the folder subsystem touches). -/
structure FileRow where
  id : String
  name : String
  folderId : String
  tenantId : String
deriving DecidableEq

/-- A row of the `Tenant` table. -/
structure Tenant where
  id : String
  name : String
  rootFolderId : Option String
deriving DecidableEq

/-- The `UserRole` enum. -/
inductive UserRole where
  | USER
  | TENANT_ADMIN
  | SUPER_ADMIN
deriving DecidableEq

/-- A row of the `TenantMember` table. -/
structure TenantMember where
  userId : String
  tenantId : String
  role : UserRole
deriving DecidableEq

/-- The database state visible to the folder subsystem. -/
structure DB where
  tenants : List Tenant
  folders : List Folder
  files : List FileRow
  members : List TenantMember
deriving DecidableEq

/-- The JS global replace on the identifier: every hyphen becomes an
underscore. -/
def encodeSegment (s : String) : String :=
  String.mk (s.data.map fun c => if c = '-' then '_' else c)

/-- JS `String.prototype.trim`: strip leading and trailing whitespace. -/
def jsTrim (s : String) : String :=
  String.mk
    (((s.data.dropWhile Char.isWhitespace).reverse.dropWhile
      Char.isWhitespace).reverse)

/-- Split a character list at the dot separator (one label per run). -/
def splitSegsAux : List Char → List Char → List (List Char)
  | [], acc => [acc.reverse]
  | c :: cs, acc =>
    if c = '.' then acc.reverse :: splitSegsAux cs []
    else splitSegsAux cs (c :: acc)

/-- The ltree labels of a stored path text (split at the separator). -/
def segs (p : String) : List String :=
  (splitSegsAux p.data []).map String.mk

/-- ltree containment: `desc <@ anc` / `anc @> desc` holds iff the labels of
`anc` are a prefix of the labels of `desc`. -/
def ltreeContains (anc desc : String) : Bool :=
  (segs anc).isPrefixOf (segs desc)

/-- ltree `nlevel`: number of labels. -/
def nlevel (p : String) : Nat :=
  (segs p).length

/-- The folder lookup every handler starts with:
`WHERE id = folderId AND "tenantId" = tenantId`. -/
def findFolder (db : DB) (folderId tenantId : String) : Option Folder :=
  db.folders.find? fun g => g.id == folderId && g.tenantId == tenantId

/-- Numeric role hierarchy used by the middleware. -/
def roleLevel : UserRole → Nat
  | .SUPER_ADMIN => 3
  | .TENANT_ADMIN => 2
  | .USER => 1

/-- The middleware `AuthMiddleware.requireTenantAccess`: membership lookup on
(userId, tenantId), then the optional role-hierarchy check. -/
def requireTenantAccess (db : DB) (userId tenantId : String)
    (requiredRole : Option UserRole) : Bool :=
  match db.members.find? fun m => m.userId == userId && m.tenantId == tenantId with
  | none => false
  | some m =>
    match requiredRole with
    | none => true
    | some r => decide (roleLevel r ≤ roleLevel m.role)

/-- The unique index `Folder_parentId_name_tenantId_key`.  Postgres unique
indexes treat NULLs as distinct, so rows with a NULL `parentId` never
conflict. -/
def violatesFolderUnique (db : DB) (f : Folder) : Bool :=
  f.parentId.isSome && db.folders.any fun g =>
    g.parentId == f.parentId && g.name == f.name && g.tenantId == f.tenantId

/-- The raw `INSERT INTO "Folder"`: `none` models the statement throwing a
unique-constraint violation; otherwise the row is appended. -/
def dbInsertFolder (db : DB) (f : Folder) : Option DB :=
  if violatesFolderUnique db f then none
  else some { db with folders := db.folders ++ [f] }

/-- Body of the POST folder request.  The handler destructures `tenantId`
from the request body, not from the route parameters. -/
structure CreateFolderReq where
  bodyTenantId : String
  name : String
  parentId : String

/-- The POST `/tenants/:tenantId/folders` handler body.  `checkDb` is the
state the validations, the parent lookup and the duplicate pre-check read;
`insertDb` is the state the raw INSERT executes against — separating the two
lets a concurrent writer be interposed between pre-check and insert.  The
sequential handler is `createSubfolder` below, where both coincide.  A
constraint violation at insert time is caught by the handler's generic
catch and surfaces as the 500 `STORAGE_FAILURE` response. -/
def createSubfolderAt (checkDb insertDb : DB) (req : CreateFolderReq)
    (newFolderId : String) : DB × Except Err Folder :=
  if (jsTrim req.name) = "" then (insertDb, Except.error Err.INVALID_INPUT)
  else if req.parentId = "" then (insertDb, Except.error Err.INVALID_INPUT)
  else
    match findFolder checkDb req.parentId req.bodyTenantId with
    | none => (insertDb, Except.error Err.NOT_FOUND)
    | some parent =>
      if checkDb.folders.any (fun g =>
          g.name == (jsTrim req.name) && g.parentId == some req.parentId &&
            g.tenantId == req.bodyTenantId) then
        (insertDb, Except.error Err.DUPLICATE_NAME)
      else
        match dbInsertFolder insertDb
            { id := newFolderId, name := (jsTrim req.name),
              parentId := some req.parentId, tenantId := req.bodyTenantId,
              path := parent.path ++ "." ++ encodeSegment newFolderId } with
        | none => (insertDb, Except.error Err.STORAGE_FAILURE)
        | some db2 =>
          (db2, Except.ok
            { id := newFolderId, name := (jsTrim req.name),
              parentId := some req.parentId, tenantId := req.bodyTenantId,
              path := parent.path ++ "." ++ encodeSegment newFolderId })

/-- The POST folder handler run without interleaving. -/
def createSubfolder (db : DB) (req : CreateFolderReq) (newFolderId : String) :
    DB × Except Err Folder :=
  createSubfolderAt db db req newFolderId

/-- The full POST route: `authenticate` + `requireTenantAccess()` guard the
route using the `tenantId` route parameter, then the handler body runs on
the body's `tenantId`. -/
def postFolderRoute (db : DB) (userId paramsTenantId : String)
    (req : CreateFolderReq) (newFolderId : String) : DB × Except Err Folder :=
  if requireTenantAccess db userId paramsTenantId none then
    createSubfolder db req newFolderId
  else (db, Except.error Err.PERMISSION_DENIED)

/-- The DELETE `/tenants/:tenantId/folders/:folderId` handler body: fetch
path and parentId, refuse the root, then in one transaction delete every
`File` referencing a folder of the subtree and every `Folder` of the
subtree, returning the deleted-folder count.  `txOk = false` models the
transaction failing and rolling back (the handler then returns the generic
500). -/
def deleteSubtree (db : DB) (tenantId folderId : String) (txOk : Bool) :
    DB × Except Err Nat :=
  match findFolder db folderId tenantId with
  | none => (db, Except.error Err.NOT_FOUND)
  | some f =>
    if f.parentId = none then (db, Except.error Err.CANNOT_DELETE_ROOT)
    else if txOk then
      let doomedIds := (db.folders.filter fun g =>
        ltreeContains f.path g.path && g.tenantId == tenantId).map Folder.id
      ({ db with
          files := db.files.filter fun fl => !(doomedIds.contains fl.folderId),
          folders := db.folders.filter fun g =>
            !(ltreeContains f.path g.path && g.tenantId == tenantId) },
        Except.ok doomedIds.length)
    else (db, Except.error Err.STORAGE_FAILURE)

/-- The row update `data: { name: trimmedName }` performs on a folder row
matched by id. -/
def applyRename (folderId newName : String) (g : Folder) : Folder :=
  if g.id = folderId then { g with name := newName } else g

/-- The PATCH `/tenants/:tenantId/folders/:folderId` handler body: validate
the name, fetch the folder, run the sibling duplicate check only when the
folder has a parent, then update the name field of the row with that id. -/
def renameFolder (db : DB) (tenantId folderId name : String) :
    DB × Except Err Folder :=
  if (jsTrim name) = "" then (db, Except.error Err.INVALID_INPUT)
  else
    match findFolder db folderId tenantId with
    | none => (db, Except.error Err.NOT_FOUND)
    | some f =>
      if (match f.parentId with
          | some pid => db.folders.any fun g =>
              g.name == (jsTrim name) && g.parentId == some pid &&
                g.tenantId == tenantId && g.id != folderId
          | none => false) then
        (db, Except.error Err.DUPLICATE_NAME)
      else
        ({ db with folders := db.folders.map (applyRename folderId (jsTrim name)) },
          Except.ok (applyRename folderId (jsTrim name) f))

/-- Output row of the descendants/ancestors queries. -/
structure FolderRowOut where
  id : String
  name : String
  path : String
  depth : Int
deriving DecidableEq

/-- The `ORDER BY path ASC` order: ltree compares label by label, i.e. the
lexicographic order on the segment lists. -/
def pathLe (a b : Folder) : Prop :=
  segs a.path ≤ segs b.path

instance : DecidableRel pathLe :=
  fun a b => inferInstanceAs (Decidable (segs a.path ≤ segs b.path))

instance : IsTotal Folder pathLe :=
  ⟨fun a b => le_total (segs a.path) (segs b.path)⟩

instance : IsTrans Folder pathLe :=
  ⟨fun _ _ _ h1 h2 => le_trans h1 h2⟩

/-- The `ORDER BY nlevel(path) ASC` order. -/
def levelLe (a b : Folder) : Prop :=
  nlevel a.path ≤ nlevel b.path

instance : DecidableRel levelLe :=
  fun a b => inferInstanceAs (Decidable (nlevel a.path ≤ nlevel b.path))

instance : IsTotal Folder levelLe :=
  ⟨fun a b => le_total (nlevel a.path) (nlevel b.path)⟩

instance : IsTrans Folder levelLe :=
  ⟨fun _ _ _ h1 h2 => le_trans h1 h2⟩

/-- The GET `/:folderId/descendants` handler: pivot lookup, then
`WHERE path <@ pivot AND id != folderId AND "tenantId" = tenantId
ORDER BY path ASC` with `depth = nlevel(path) - nlevel(pivot)`. -/
def listDescendants (db : DB) (tenantId folderId : String) :
    Except Err (List FolderRowOut) :=
  match findFolder db folderId tenantId with
  | none => Except.error Err.NOT_FOUND
  | some f =>
    Except.ok ((List.insertionSort pathLe (db.folders.filter fun g =>
        ltreeContains f.path g.path && g.id != folderId &&
          g.tenantId == tenantId)).map fun g =>
      { id := g.id, name := g.name, path := g.path,
        depth := (nlevel g.path : Int) - (nlevel f.path : Int) })

/-- The GET `/:folderId/ancestors` handler: pivot lookup, then
`WHERE path @> pivot AND "tenantId" = tenantId ORDER BY nlevel(path) ASC`
with `depth = nlevel(path)`.  Note the pivot row itself qualifies. -/
def listAncestors (db : DB) (tenantId folderId : String) :
    Except Err (List FolderRowOut) :=
  match findFolder db folderId tenantId with
  | none => Except.error Err.NOT_FOUND
  | some f =>
    Except.ok ((List.insertionSort levelLe (db.folders.filter fun g =>
        ltreeContains g.path f.path && g.tenantId == tenantId)).map fun g =>
      { id := g.id, name := g.name, path := g.path,
        depth := (nlevel g.path : Int) })

/-- Result of the tenant-creation transaction. -/
structure CreateTenantResult where
  tenant : Tenant
  rootFolder : Folder
deriving DecidableEq

/-- The POST `/tenants` handler: validate the name, pre-check tenant-name
uniqueness, then in one transaction create the tenant, insert its root
folder (`parentId` NULL, path = the tenant id with hyphens replaced by
underscores), point the tenant at the root folder, and add the creator as
`TENANT_ADMIN`.  `txOk = false` models the transaction failing and rolling
back. -/
def createTenant (db : DB) (userId name newTenantId newRootFolderId : String)
    (txOk : Bool) : DB × Except Err CreateTenantResult :=
  if (jsTrim name) = "" then (db, Except.error Err.INVALID_INPUT)
  else if db.tenants.any (fun t => t.name == (jsTrim name)) then
    (db, Except.error Err.DUPLICATE_NAME)
  else if txOk then
    ({ db with
        tenants := db.tenants ++
          [{ id := newTenantId, name := (jsTrim name),
             rootFolderId := some newRootFolderId }],
        folders := db.folders ++
          [{ id := newRootFolderId, name := "root", parentId := none,
             tenantId := newTenantId, path := encodeSegment newTenantId }],
        members := db.members ++
          [{ userId := userId, tenantId := newTenantId,
             role := UserRole.TENANT_ADMIN }] },
      Except.ok
        { tenant := { id := newTenantId, name := (jsTrim name),
                      rootFolderId := some newRootFolderId },
          rootFolder := { id := newRootFolderId, name := "root",
                          parentId := none, tenantId := newTenantId,
                          path := encodeSegment newTenantId } })
  else (db, Except.error Err.STORAGE_FAILURE)

/-! Concrete sample states used to instantiate the theorems. -/

/-- Root folder of tenant `ta` (path seeded from the tenant id). -/
def rootA : Folder :=
  { id := "ra", name := "root", parentId := none, tenantId := "ta", path := "ta" }

/-- A subfolder of the root of tenant `ta`. -/
def childA : Folder :=
  { id := "ca", name := "Reports", parentId := some "ra", tenantId := "ta",
    path := "ta.ca" }

/-- A subfolder of `childA`. -/
def grandA : Folder :=
  { id := "ga", name := "Q1", parentId := some "ca", tenantId := "ta",
    path := "ta.ca.ga" }

/-- A file stored in `childA`. -/
def fileA : FileRow :=
  { id := "fa", name := "doc.pdf", folderId := "ca", tenantId := "ta" }

/-- A file stored in the root of tenant `ta`. -/
def fileRootA : FileRow :=
  { id := "fr", name := "readme.txt", folderId := "ra", tenantId := "ta" }

/-- Tenant `ta` with its root folder provisioned. -/
def tenantA : Tenant :=
  { id := "ta", name := "Acme", rootFolderId := some "ra" }

/-- Sample state: one tenant, a three-level folder chain, two files, one
admin member. -/
def dbA : DB :=
  { tenants := [tenantA],
    folders := [rootA, childA, grandA],
    files := [fileA, fileRootA],
    members := [{ userId := "u1", tenantId := "ta",
                  role := UserRole.TENANT_ADMIN }] }

/-- Root folder of a second tenant `tb`. -/
def rootB : Folder :=
  { id := "rb", name := "root", parentId := none, tenantId := "tb", path := "tb" }

/-- Sample state with two tenants where user `u1` is a member of `ta`
only. -/
def dbAB : DB :=
  { tenants := [tenantA, { id := "tb", name := "Beta", rootFolderId := some "rb" }],
    folders := [rootA, rootB],
    files := [],
    members := [{ userId := "u1", tenantId := "ta",
                  role := UserRole.TENANT_ADMIN }] }

/-- Sample state with only the root of tenant `ta`. -/
def dbSolo : DB :=
  { tenants := [tenantA], folders := [rootA], files := [],
    members := [{ userId := "u1", tenantId := "ta",
                  role := UserRole.TENANT_ADMIN }] }

/-- Renamed child used in witness states. -/
def childARenamed : Folder :=
  applyRename "ca" "Summary" childA

/-- Sample state after renaming `childA` to "Summary". -/
def dbARenamed : DB :=
  { dbA with folders := dbA.folders.map (applyRename "ca" "Summary") }

/-- Folder created in the witness of the path-composition claim. -/
def docsFolder : Folder :=
  { id := "ab-cd", name := "docs", parentId := some "ra", tenantId := "ta",
    path := "ta.ab_cd" }

/-- Sample state after creating `docsFolder` under the solo root. -/
def dbSoloDocs : DB :=
  { dbSolo with folders := dbSolo.folders ++ [docsFolder] }

/-- Result of provisioning a fresh tenant with a hyphenated id. -/
def rootTB : Folder :=
  { id := "r-b", name := "root", parentId := none, tenantId := "t-b",
    path := "t_b" }

/-- Result of provisioning a fresh tenant with a hyphenated id. -/
def resultTB : CreateTenantResult :=
  { tenant := { id := "t-b", name := "Beta", rootFolderId := some "r-b" },
    rootFolder := rootTB }

/-- Sample state after provisioning tenant `t-b`. -/
def dbSoloTB : DB :=
  { dbSolo with
      tenants := dbSolo.tenants ++ [resultTB.tenant],
      folders := dbSolo.folders ++ [resultTB.rootFolder],
      members := dbSolo.members ++
        [{ userId := "u2", tenantId := "t-b",
           role := UserRole.TENANT_ADMIN }] }

/-- Folder created across the tenant boundary in the C5 scenario. -/
def sneakyFolder : Folder :=
  { id := "nf1", name := "sneaky", parentId := some "rb", tenantId := "tb",
    path := "tb.nf1" }

/-- Two-tenant sample state after the cross-tenant create. -/
def dbABAfter : DB :=
  { dbAB with folders := dbAB.folders ++ [sneakyFolder] }

/-- Request used in the concurrent-create scenario. -/
def reqDocs : CreateFolderReq :=
  { bodyTenantId := "ta", name := "docs", parentId := "ra" }

/-- Folder the race winner creates. -/
def docs1 : Folder :=
  { id := "id1", name := "docs", parentId := some "ra", tenantId := "ta",
    path := "ta.id1" }

/-- Solo state after the race winner's insert. -/
def dbSoloDocs1 : DB :=
  { dbSolo with folders := dbSolo.folders ++ [docs1] }

/-- Sample state after deleting the subtree rooted at `childA`. -/
def dbADeleted : DB :=
  { dbA with files := [fileRootA], folders := [rootA] }

/-- The output row the ancestors query produces for the solo root. -/
def rootRowOut : FolderRowOut :=
  { id := "ra", name := "root", path := "ta", depth := 1 }

/-- A second subfolder of the sample root, for the case-sensitivity
scenarios. -/
def childB : Folder :=
  { id := "cb", name := "budget", parentId := some "ra", tenantId := "ta",
    path := "ta.cb" }

/-- Sample state with two siblings under the root. -/
def dbTwo : DB :=
  { tenants := [tenantA],
    folders := [rootA, childA, childB],
    files := [],
    members := [{ userId := "u1", tenantId := "ta",
                  role := UserRole.TENANT_ADMIN }] }

instance {ε α : Type} [DecidableEq ε] [DecidableEq α] :
    DecidableEq (Except ε α) := fun x y =>
  match x, y with
  | .ok a, .ok b =>
    decidable_of_iff (a = b) ⟨fun h => h ▸ rfl, fun h => Except.ok.inj h⟩
  | .error a, .error b =>
    decidable_of_iff (a = b) ⟨fun h => h ▸ rfl, fun h => Except.error.inj h⟩
  | .ok _, .error _ => isFalse fun hh => Except.noConfusion hh
  | .error _, .ok _ => isFalse fun hh => Except.noConfusion hh

/-! Helper lemmas. -/

theorem ltreeContains_refl (p : String) : ltreeContains p p = true := by
  simp [ltreeContains]

theorem length_filter_add_length_filter_not {α : Type} (p : α → Bool) (l : List α) :
    (l.filter p).length + (l.filter fun a => !(p a)).length = l.length := by
  induction l with
  | nil => rfl
  | cons a l ih =>
    by_cases h : p a = true <;> simp [List.filter_cons, h] <;> omega

theorem encodeSegment_data (s : String) :
    (encodeSegment s).data = s.data.map fun c => if c = '-' then '_' else c :=
  rfl

theorem encodeSegment_no_dot (s : String) (h : '.' ∉ s.data) :
    '.' ∉ (encodeSegment s).data := by
  rw [encodeSegment_data]
  intro hmem
  obtain ⟨c, hc, hceq⟩ := List.mem_map.1 hmem
  by_cases h2 : c = '-'
  · simp [h2] at hceq
  · rw [if_neg h2] at hceq
    exact h (hceq ▸ hc)

theorem findFolder_mem {db : DB} {fid t : String} {f : Folder}
    (hf : findFolder db fid t = some f) :
    f ∈ db.folders ∧ f.id = fid ∧ f.tenantId = t := by
  have hmem := List.mem_of_find?_eq_some hf
  have hp := List.find?_some hf
  simp only [Bool.and_eq_true, beq_iff_eq] at hp
  exact ⟨hmem, hp.1, hp.2⟩

/-! Claim theorems. -/

/-- Claim C3: deleteSubtree on any folder with a null parentId (the tenant
root) always fails with the CANNOT_DELETE_ROOT error and returns the state
unchanged. -/
theorem delete_root_protected (db : DB) (t fid : String) (txOk : Bool)
    (f : Folder) (hf : findFolder db fid t = some f)
    (hroot : f.parentId = none) :
    deleteSubtree db t fid txOk = (db, Except.error Err.CANNOT_DELETE_ROOT) := by
  unfold deleteSubtree
  rw [hf]
  simp [hroot]

/-- Witness for C3: deleting the root of tenant `ta` in the sample state. -/
theorem delete_root_protected_witness :
    findFolder dbA "ra" "ta" = some rootA ∧ rootA.parentId = none ∧
      deleteSubtree dbA "ta" "ra" true =
        (dbA, Except.error Err.CANNOT_DELETE_ROOT) :=
  ⟨by decide, by decide,
    delete_root_protected dbA "ta" "ra" true rootA (by decide) (by decide)⟩

/-- Claim C6: a successful rename maps every folder row through
`applyRename`, which preserves path, id, parentId and tenantId of every row
and is the identity on every row whose id is not the renamed one; files,
tenants and memberships are untouched. -/
theorem rename_preserves_paths (db : DB) (t fid nm : String) (db' : DB)
    (f' : Folder) (h : renameFolder db t fid nm = (db', Except.ok f')) :
    db'.folders = db.folders.map (applyRename fid (jsTrim nm)) ∧
    (∀ g : Folder, (applyRename fid (jsTrim nm) g).path = g.path ∧
      (applyRename fid (jsTrim nm) g).id = g.id ∧
      (applyRename fid (jsTrim nm) g).parentId = g.parentId ∧
      (applyRename fid (jsTrim nm) g).tenantId = g.tenantId) ∧
    (∀ g : Folder, g.id ≠ fid → applyRename fid (jsTrim nm) g = g) ∧
    db'.files = db.files ∧ db'.tenants = db.tenants ∧
    db'.members = db.members := by
  unfold renameFolder at h
  split at h
  · exact absurd (congrArg Prod.snd h) (by simp)
  · split at h
    · exact absurd (congrArg Prod.snd h) (by simp)
    · split at h
      · exact absurd (congrArg Prod.snd h) (by simp)
      · rw [Prod.mk.injEq] at h
        obtain ⟨h1, _⟩ := h
        subst h1
        refine ⟨rfl, ?_, ?_, rfl, rfl, rfl⟩
        · intro g
          unfold applyRename
          split <;> simp
        · intro g hg
          unfold applyRename
          rw [if_neg hg]

/-- Witness for C6: renaming `childA` to "Summary" in the sample state. -/
theorem rename_preserves_paths_witness :
    renameFolder dbA "ta" "ca" "Summary" =
      (dbARenamed, Except.ok childARenamed) ∧
    dbARenamed.files = dbA.files :=
  ⟨by decide,
    (rename_preserves_paths dbA "ta" "ca" "Summary" dbARenamed childARenamed
      (by decide)).2.2.2.1⟩

/-- Claim C1: a folder created by the POST handler stores the parent's path
followed by the separator and the new id with hyphens replaced by
underscores; the root folder provisioned with a tenant stores the tenant id
with hyphens replaced by underscores, with no separator in it (a single
segment) and no parent. -/
theorem created_folder_paths :
    (∀ (db db' : DB) (req : CreateFolderReq) (newId : String) (f : Folder),
      createSubfolder db req newId = (db', Except.ok f) →
      ∃ parent, findFolder db req.parentId req.bodyTenantId = some parent ∧
        f.path = parent.path ++ "." ++ encodeSegment newId ∧
        f.parentId = some req.parentId) ∧
    (∀ (db db' : DB) (u nm tid rid : String) (txOk : Bool)
      (r : CreateTenantResult),
      createTenant db u nm tid rid txOk = (db', Except.ok r) →
      r.rootFolder.path = encodeSegment tid ∧ r.rootFolder.parentId = none ∧
        ('.' ∉ tid.data → '.' ∉ r.rootFolder.path.data)) := by
  constructor
  · intro db db' req newId f h
    unfold createSubfolder createSubfolderAt at h
    split at h
    · exact absurd (congrArg Prod.snd h) (by simp)
    · split at h
      · exact absurd (congrArg Prod.snd h) (by simp)
      · split at h
        · exact absurd (congrArg Prod.snd h) (by simp)
        · rename_i parent hparent
          split at h
          · exact absurd (congrArg Prod.snd h) (by simp)
          · split at h
            · exact absurd (congrArg Prod.snd h) (by simp)
            · rw [Prod.mk.injEq] at h
              obtain ⟨_, h2⟩ := h
              have hf := Except.ok.inj h2
              exact ⟨parent, hparent, by rw [← hf], by rw [← hf]⟩
  · intro db db' u nm tid rid txOk r h
    unfold createTenant at h
    split at h
    · exact absurd (congrArg Prod.snd h) (by simp)
    · split at h
      · exact absurd (congrArg Prod.snd h) (by simp)
      · split at h
        · rw [Prod.mk.injEq] at h
          have hr := Except.ok.inj h.2
          refine ⟨by rw [← hr], by rw [← hr], ?_⟩
          intro hdot
          rw [← hr]
          exact encodeSegment_no_dot tid hdot
        · exact absurd (congrArg Prod.snd h) (by simp)

/-- Witness for C1: creating a subfolder under the sample root and
provisioning a fresh tenant with a hyphenated id. -/
theorem created_folder_paths_witness :
    (∃ parent, findFolder dbSolo "ra" "ta" = some parent ∧
      docsFolder.path = parent.path ++ "." ++ encodeSegment "ab-cd" ∧
      docsFolder.parentId = some "ra") ∧
    (resultTB.rootFolder.path = encodeSegment "t-b" ∧
      resultTB.rootFolder.parentId = none ∧
      ('.' ∉ "t-b".data → '.' ∉ resultTB.rootFolder.path.data)) :=
  ⟨created_folder_paths.1 dbSolo dbSoloDocs
      { bodyTenantId := "ta", name := "docs", parentId := "ra" } "ab-cd"
      docsFolder (by decide),
    created_folder_paths.2 dbSolo dbSoloTB "u2" "Beta" "t-b" "r-b" true
      resultTB (by decide)⟩

/-- Claim C5 evidence: in a state where user `u1` is a member of tenant `ta`
only, the POST folder route authorized against route parameter `ta`
nevertheless creates a folder in tenant `tb`, because the handler scopes its
reads and its insert by the body's `tenantId` while the middleware checked
the route parameter's. -/
theorem cross_tenant_create_bug :
    requireTenantAccess dbAB "u1" "ta" none = true ∧
    requireTenantAccess dbAB "u1" "tb" none = false ∧
    postFolderRoute dbAB "u1" "ta"
      { bodyTenantId := "tb", name := "sneaky", parentId := "rb" } "nf1" =
      (dbABAfter, Except.ok sneakyFolder) ∧
    sneakyFolder.tenantId = "tb" ∧ ("tb" : String) ≠ "ta" := by
  refine ⟨by decide, by decide, by decide, by decide, by decide⟩

/-- Claim C4 counterexample: when the pre-check passed against the original
state but the insert hits the (parentId, name, tenantId) constraint because
a concurrent identical create already committed, the handler returns the
generic 500 `STORAGE_FAILURE` response, not the 409 `DUPLICATE_NAME` of the
pre-check. -/
theorem race_loser_error_counterexample :
    createSubfolderAt dbSolo dbSolo reqDocs "id1" =
      (dbSoloDocs1, Except.ok docs1) ∧
    createSubfolderAt dbSolo dbSoloDocs1 reqDocs "id2" =
      (dbSoloDocs1, Except.error Err.STORAGE_FAILURE) ∧
    Err.STORAGE_FAILURE ≠ Err.DUPLICATE_NAME ∧
    Err.STORAGE_FAILURE.status = 500 ∧ Err.DUPLICATE_NAME.status = 409 := by
  refine ⟨by decide, by decide, by decide, rfl, rfl⟩

/-- Claim C4 (amended): of two identical concurrent creates both of whose
pre-checks read the initial state, the one whose insert commits first
succeeds and the other fails — but with the generic `STORAGE_FAILURE` (500)
error of the handler's catch-all, and with the winner's state left
unchanged. -/
theorem race_loser_gets_storage_failure (db db1 : DB) (req : CreateFolderReq)
    (id1 id2 : String) (f1 : Folder)
    (h1 : createSubfolderAt db db req id1 = (db1, Except.ok f1)) :
    createSubfolderAt db db1 req id2 =
      (db1, Except.error Err.STORAGE_FAILURE) := by
  unfold createSubfolderAt at h1 ⊢
  split at h1
  · exact absurd (congrArg Prod.snd h1) (by simp)
  · rename_i hname
    split at h1
    · exact absurd (congrArg Prod.snd h1) (by simp)
    · rename_i hpid
      rw [if_neg hname, if_neg hpid]
      split at h1
      · exact absurd (congrArg Prod.snd h1) (by simp)
      · rename_i parent hparent
        split at h1
        · exact absurd (congrArg Prod.snd h1) (by simp)
        · rename_i hdup
          rw [if_neg hdup]
          split at h1
          · exact absurd (congrArg Prod.snd h1) (by simp)
          · rename_i db2 hins
            have hdb2 : db2 = db1 := congrArg Prod.fst h1
            unfold dbInsertFolder at hins
            split at hins
            · exact absurd hins (by simp)
            · rename_i hnoviol
              have hdb2eq := Option.some.inj hins
              have hviol : violatesFolderUnique db1
                  { id := id2, name := jsTrim req.name,
                    parentId := some req.parentId,
                    tenantId := req.bodyTenantId,
                    path := parent.path ++ "." ++ encodeSegment id2 } = true := by
                rw [← hdb2, ← hdb2eq]
                simp [violatesFolderUnique, List.any_append]
              rw [show dbInsertFolder db1
                  { id := id2, name := jsTrim req.name,
                    parentId := some req.parentId,
                    tenantId := req.bodyTenantId,
                    path := parent.path ++ "." ++ encodeSegment id2 } = none
                from by unfold dbInsertFolder; rw [if_pos hviol]]

/-- Witness for the amended C4 theorem: the concrete race on the solo
state. -/
theorem race_loser_gets_storage_failure_witness :
    createSubfolderAt dbSolo dbSoloDocs1 reqDocs "id2" =
      (dbSoloDocs1, Except.error Err.STORAGE_FAILURE) :=
  race_loser_gets_storage_failure dbSolo dbSoloDocs1 reqDocs "id1" "id2"
    docs1 (by decide)

/-- Unfolding equation of `deleteSubtree` once the pivot folder is found. -/
theorem deleteSubtree_found (db : DB) (t fid : String) (txOk : Bool)
    (f : Folder) (hf : findFolder db fid t = some f) :
    deleteSubtree db t fid txOk =
      (if f.parentId = none then (db, Except.error Err.CANNOT_DELETE_ROOT)
       else if txOk then
        ({ db with
            files := db.files.filter fun fl =>
              !(((db.folders.filter fun g =>
                ltreeContains f.path g.path && g.tenantId == t).map
                  Folder.id).contains fl.folderId),
            folders := db.folders.filter fun g =>
              !(ltreeContains f.path g.path && g.tenantId == t) },
          Except.ok ((db.folders.filter fun g =>
            ltreeContains f.path g.path && g.tenantId == t).map
              Folder.id).length)
       else (db, Except.error Err.STORAGE_FAILURE)) := by
  unfold deleteSubtree
  rw [hf]

/-- Claim C2: a successful deleteSubtree removes every folder whose path the
pivot's path contains (the pivot included), leaves no file referencing any
removed folder, and returns the number of folders removed; every failing run
leaves the state exactly unchanged.  The tenant-containment hypothesis is
the reachable-state invariant that a path contained in a tenant's subtree
belongs to that tenant. -/
theorem delete_subtree_atomic (db : DB) (t fid : String) (txOk : Bool)
    (f : Folder) (hf : findFolder db fid t = some f)
    (hinv : ∀ g ∈ db.folders, ltreeContains f.path g.path = true →
      g.tenantId = t) :
    (∀ db' n, deleteSubtree db t fid txOk = (db', Except.ok n) →
      (∀ g ∈ db.folders, ltreeContains f.path g.path = true →
        g ∉ db'.folders) ∧
      f ∉ db'.folders ∧
      (∀ fl ∈ db'.files, ∀ g ∈ db.folders,
        ltreeContains f.path g.path = true → fl.folderId ≠ g.id) ∧
      n + db'.folders.length = db.folders.length) ∧
    (∀ db' e, deleteSubtree db t fid txOk = (db', Except.error e) →
      db' = db) := by
  rw [deleteSubtree_found db t fid txOk f hf]
  by_cases hroot : f.parentId = none
  · rw [if_pos hroot]
    constructor
    · intro db' n h
      exact absurd (congrArg Prod.snd h) (by simp)
    · intro db' e h
      exact (congrArg Prod.fst h).symm
  · rw [if_neg hroot]
    cases txOk with
    | false =>
      constructor
      · intro db' n h
        exact absurd (congrArg Prod.snd h) (by simp)
      · intro db' e h
        exact (congrArg Prod.fst h).symm
    | true =>
      rw [if_pos rfl]
      constructor
      · intro db' n h
        have hdb : db' = { db with
            files := db.files.filter fun fl =>
              !(((db.folders.filter fun g =>
                ltreeContains f.path g.path && g.tenantId == t).map
                  Folder.id).contains fl.folderId),
            folders := db.folders.filter fun g =>
              !(ltreeContains f.path g.path && g.tenantId == t) } :=
          (congrArg Prod.fst h).symm
        have hn : n = ((db.folders.filter fun g =>
            ltreeContains f.path g.path && g.tenantId == t).map
              Folder.id).length :=
          (Except.ok.inj (congrArg Prod.snd h)).symm
        have hkill : ∀ g ∈ db.folders, ltreeContains f.path g.path = true →
            g ∉ db'.folders := by
          intro g hg hcontain hmem'
          rw [hdb] at hmem'
          have hpred := (List.mem_filter.1 hmem').2
          simp only [hcontain, hinv g hg hcontain, Bool.not_eq_eq_eq_not,
            Bool.and_eq_true, beq_iff_eq, Bool.not_true,
            Bool.and_eq_false_iff] at hpred
          simp at hpred
        refine ⟨hkill, ?_, ?_, ?_⟩
        · have hfmem := findFolder_mem hf
          exact hkill f hfmem.1 (ltreeContains_refl f.path)
        · intro fl hfl g hg hcontain
          rw [hdb] at hfl
          have hnc := (List.mem_filter.1 hfl).2
          intro heq
          have hgin : g ∈ db.folders.filter fun g =>
              ltreeContains f.path g.path && g.tenantId == t :=
            List.mem_filter.2 ⟨hg, by
              simp [hcontain, hinv g hg hcontain]⟩
          have hid : g.id ∈ (db.folders.filter fun g =>
              ltreeContains f.path g.path && g.tenantId == t).map
                Folder.id :=
            List.mem_map_of_mem Folder.id hgin
          have hc : ((db.folders.filter fun g =>
              ltreeContains f.path g.path && g.tenantId == t).map
                Folder.id).contains g.id = true :=
            List.elem_iff.2 hid
          rw [heq, hc] at hnc
          simp at hnc
        · rw [hn, hdb, List.length_map]
          exact length_filter_add_length_filter_not _ db.folders
      · intro db' e h
        exact absurd (congrArg Prod.snd h) (by simp)

/-- Witness for C2: deleting the `childA` subtree of the sample state
removes `childA` and its descendant, removes the file stored below it, and
reports two folders removed. -/
theorem delete_subtree_atomic_witness :
    findFolder dbA "ca" "ta" = some childA ∧
    (∀ g ∈ dbA.folders, ltreeContains childA.path g.path = true →
      g.tenantId = "ta") ∧
    childA ∉ dbADeleted.folders ∧
    2 + dbADeleted.folders.length = dbA.folders.length := by
  refine ⟨by decide, by decide, ?_, ?_⟩
  · exact ((delete_subtree_atomic dbA "ta" "ca" true childA (by decide)
      (by decide)).1 dbADeleted 2 (by decide)).2.1
  · exact ((delete_subtree_atomic dbA "ta" "ca" true childA (by decide)
      (by decide)).1 dbADeleted 2 (by decide)).2.2.2

/-- Claim C9: tenant provisioning is all-or-nothing — a successful run
leaves exactly one root folder (null parentId) for the new tenant and
exactly one tenant row for the new id, pointing at that root folder; a
failing run leaves the state exactly unchanged. -/
theorem tenant_provisioning_atomic (db : DB) (u nm tid rid : String)
    (txOk : Bool)
    (hfreshF : ∀ g ∈ db.folders, g.tenantId ≠ tid)
    (hfreshT : ∀ t ∈ db.tenants, t.id ≠ tid) :
    (∀ db' r, createTenant db u nm tid rid txOk = (db', Except.ok r) →
      db'.folders.filter (fun g => g.tenantId == tid && g.parentId == none) =
        [r.rootFolder] ∧
      db'.tenants.filter (fun t => t.id == tid) = [r.tenant] ∧
      r.tenant.rootFolderId = some r.rootFolder.id ∧
      r.rootFolder.parentId = none ∧ r.rootFolder.tenantId = tid) ∧
    (∀ db' e, createTenant db u nm tid rid txOk = (db', Except.error e) →
      db' = db) := by
  unfold createTenant
  split
  · constructor
    · intro db' r h
      exact absurd (congrArg Prod.snd h) (by simp)
    · intro db' e h
      exact (congrArg Prod.fst h).symm
  · split
    · constructor
      · intro db' r h
        exact absurd (congrArg Prod.snd h) (by simp)
      · intro db' e h
        exact (congrArg Prod.fst h).symm
    · split
      · constructor
        · intro db' r h
          have hdb : db' = { db with
              tenants := db.tenants ++
                [{ id := tid, name := jsTrim nm,
                   rootFolderId := some rid }],
              folders := db.folders ++
                [{ id := rid, name := "root", parentId := none,
                   tenantId := tid, path := encodeSegment tid }],
              members := db.members ++
                [{ userId := u, tenantId := tid,
                   role := UserRole.TENANT_ADMIN }] } :=
            (congrArg Prod.fst h).symm
          have hr := (Except.ok.inj (congrArg Prod.snd h)).symm
          have hfoldNil : db.folders.filter
              (fun g => g.tenantId == tid && g.parentId == none) = [] := by
            rw [List.filter_eq_nil_iff]
            intro g hg
            simp [hfreshF g hg]
          have htenNil : db.tenants.filter (fun t => t.id == tid) = [] := by
            rw [List.filter_eq_nil_iff]
            intro t ht
            simp [hfreshT t ht]
          rw [hdb, hr]
          refine ⟨?_, ?_, rfl, rfl, rfl⟩
          · simp [List.filter_append, hfoldNil]
          · simp [List.filter_append, htenNil]
        · intro db' e h
          exact absurd (congrArg Prod.snd h) (by simp)
      · constructor
        · intro db' r h
          exact absurd (congrArg Prod.snd h) (by simp)
        · intro db' e h
          exact (congrArg Prod.fst h).symm

/-- Witness for C9: provisioning tenant `t-b` on top of the solo state. -/
theorem tenant_provisioning_atomic_witness :
    (∀ g ∈ dbSolo.folders, g.tenantId ≠ "t-b") ∧
    (∀ t ∈ dbSolo.tenants, t.id ≠ "t-b") ∧
    dbSoloTB.folders.filter
      (fun g => g.tenantId == "t-b" && g.parentId == none) =
      [resultTB.rootFolder] ∧
    resultTB.tenant.rootFolderId = some resultTB.rootFolder.id := by
  refine ⟨by decide, by decide, ?_, ?_⟩
  · exact ((tenant_provisioning_atomic dbSolo "u2" "Beta" "t-b" "r-b" true
      (by decide) (by decide)).1 dbSoloTB resultTB (by decide)).1
  · exact ((tenant_provisioning_atomic dbSolo "u2" "Beta" "t-b" "r-b" true
      (by decide) (by decide)).1 dbSoloTB resultTB (by decide)).2.2.1

/-- Unfolding equation of `createSubfolderAt` once validation passed and the
parent was found. -/
theorem createSubfolderAt_found (checkDb insertDb : DB)
    (req : CreateFolderReq) (newId : String) (parent : Folder)
    (hname : jsTrim req.name ≠ "") (hpid : req.parentId ≠ "")
    (hparent : findFolder checkDb req.parentId req.bodyTenantId =
      some parent) :
    createSubfolderAt checkDb insertDb req newId =
      (if (checkDb.folders.any fun g =>
          g.name == jsTrim req.name && g.parentId == some req.parentId &&
            g.tenantId == req.bodyTenantId) then
        (insertDb, Except.error Err.DUPLICATE_NAME)
      else
        match dbInsertFolder insertDb
            { id := newId, name := jsTrim req.name,
              parentId := some req.parentId, tenantId := req.bodyTenantId,
              path := parent.path ++ "." ++ encodeSegment newId } with
        | none => (insertDb, Except.error Err.STORAGE_FAILURE)
        | some db2 =>
          (db2, Except.ok
            { id := newId, name := jsTrim req.name,
              parentId := some req.parentId, tenantId := req.bodyTenantId,
              path := parent.path ++ "." ++ encodeSegment newId })) := by
  unfold createSubfolderAt
  rw [if_neg hname, if_neg hpid, hparent]

/-- Unfolding equation of `renameFolder` once validation passed and the
folder was found. -/
theorem renameFolder_found (db : DB) (t fid nm : String) (f : Folder)
    (hname : jsTrim nm ≠ "") (hf : findFolder db fid t = some f) :
    renameFolder db t fid nm =
      (if (match f.parentId with
          | some pid => db.folders.any fun g =>
              g.name == jsTrim nm && g.parentId == some pid &&
                g.tenantId == t && g.id != fid
          | none => false) then (db, Except.error Err.DUPLICATE_NAME)
      else
        ({ db with folders := db.folders.map (applyRename fid (jsTrim nm)) },
          Except.ok (applyRename fid (jsTrim nm) f))) := by
  unfold renameFolder
  rw [if_neg hname, hf]

/-- Claim C10: the sibling-duplicate checks of create and rename compare
names by exact string equality (case-sensitively): whenever no sibling
carries the exact trimmed name — in particular when every sibling's name
differs from it only in letter case — the operation succeeds. -/
theorem name_checks_case_sensitive :
    (∀ (db : DB) (req : CreateFolderReq) (newId : String) (parent : Folder),
      findFolder db req.parentId req.bodyTenantId = some parent →
      jsTrim req.name ≠ "" → req.parentId ≠ "" →
      (∀ g ∈ db.folders, g.parentId = some req.parentId →
        g.tenantId = req.bodyTenantId → g.name ≠ jsTrim req.name) →
      ∃ db' f, createSubfolder db req newId = (db', Except.ok f)) ∧
    (∀ (db : DB) (t fid nm : String) (f : Folder),
      findFolder db fid t = some f → jsTrim nm ≠ "" →
      (∀ g ∈ db.folders, g.parentId = f.parentId → g.tenantId = t →
        g.id ≠ fid → g.name ≠ jsTrim nm) →
      ∃ db' f2, renameFolder db t fid nm = (db', Except.ok f2)) := by
  constructor
  · intro db req newId parent hparent hname hpid hsib
    unfold createSubfolder
    rw [createSubfolderAt_found db db req newId parent hname hpid hparent]
    have hdup : ¬((db.folders.any fun g =>
        g.name == jsTrim req.name && g.parentId == some req.parentId &&
          g.tenantId == req.bodyTenantId) = true) := by
      intro hany
      obtain ⟨g, hg, hp⟩ := List.any_eq_true.1 hany
      simp only [Bool.and_eq_true, beq_iff_eq] at hp
      exact hsib g hg hp.1.2 hp.2 hp.1.1
    rw [if_neg hdup]
    have hviol : violatesFolderUnique db
        { id := newId, name := jsTrim req.name,
          parentId := some req.parentId, tenantId := req.bodyTenantId,
          path := parent.path ++ "." ++ encodeSegment newId } = false := by
      rw [violatesFolderUnique]
      simp only [Option.isSome_some, Bool.true_and]
      rw [List.any_eq_false]
      intro g hg hp
      simp only [Bool.and_eq_true, beq_iff_eq] at hp
      exact hsib g hg hp.1.1 hp.2 hp.1.2
    rw [show dbInsertFolder db
        { id := newId, name := jsTrim req.name,
          parentId := some req.parentId, tenantId := req.bodyTenantId,
          path := parent.path ++ "." ++ encodeSegment newId } =
        some { db with folders := db.folders ++
          [{ id := newId, name := jsTrim req.name,
             parentId := some req.parentId, tenantId := req.bodyTenantId,
             path := parent.path ++ "." ++ encodeSegment newId }] }
      from by unfold dbInsertFolder; rw [hviol]; simp]
    exact ⟨_, _, rfl⟩
  · intro db t fid nm f hf hname hsib
    rw [renameFolder_found db t fid nm f hname hf]
    have hdup : ¬((match f.parentId with
        | some pid => db.folders.any fun g =>
            g.name == jsTrim nm && g.parentId == some pid &&
              g.tenantId == t && g.id != fid
        | none => false) = true) := by
      cases hfp : f.parentId with
      | none => simp
      | some pid =>
        intro hany
        obtain ⟨g, hg, hp⟩ := List.any_eq_true.1 hany
        simp only [Bool.and_eq_true, beq_iff_eq, bne_iff_ne] at hp
        exact hsib g hg (by rw [hfp]; exact hp.1.1.2) hp.1.2 hp.2 hp.1.1.1
    rw [if_neg hdup]
    exact ⟨_, _, rfl⟩

/-- Witness for C10: with a sibling named "Reports" under the sample root,
creating "reports" succeeds, and renaming the other sibling to "REPORTS"
succeeds. -/
theorem name_checks_case_sensitive_witness :
    (∃ db' f, createSubfolder dbTwo
      { bodyTenantId := "ta", name := "reports", parentId := "ra" } "nid" =
      (db', Except.ok f)) ∧
    (∃ db' f2, renameFolder dbTwo "ta" "cb" "REPORTS" =
      (db', Except.ok f2)) :=
  ⟨name_checks_case_sensitive.1 dbTwo
      { bodyTenantId := "ta", name := "reports", parentId := "ra" } "nid"
      rootA (by decide) (by decide) (by decide) (by decide),
    name_checks_case_sensitive.2 dbTwo "ta" "cb" "REPORTS" childB
      (by decide) (by decide) (by decide)⟩

/-- Searching by id with `find?` returns the row itself when ids are
duplicate-free. -/
theorem find?_id_self : ∀ (l : List Folder) (t : String) (A : Folder),
    A ∈ l → A.tenantId = t → (l.map Folder.id).Nodup →
    l.find? (fun g => g.id == A.id && g.tenantId == t) = some A := by
  intro l
  induction l with
  | nil =>
    intro t A hA _ _
    cases hA
  | cons b l ih =>
    intro t A hA hAt hnd
    have hnd' : (b.id :: l.map Folder.id).Nodup := by simpa using hnd
    have hndc := List.nodup_cons.1 hnd'
    rcases List.mem_cons.1 hA with hb | hb
    · subst hb
      have htrue : (A.id == A.id && A.tenantId == t) = true := by
        simp [hAt]
      rw [List.find?_cons, htrue]
    · have hbid : ¬((b.id == A.id && b.tenantId == t) = true) := by
        intro hp
        simp only [Bool.and_eq_true, beq_iff_eq] at hp
        exact hndc.1 (hp.1 ▸ List.mem_map_of_mem Folder.id hb)
      have hfalse : (b.id == A.id && b.tenantId == t) = false := by
        cases hx : (b.id == A.id && b.tenantId == t) with
        | false => rfl
        | true => exact absurd hx hbid
      rw [List.find?_cons, hfalse]
      exact ih t A hb hAt hndc.2

/-- Looking up a stored row with `findFolder` finds that row when ids are
duplicate-free. -/
theorem findFolder_self (db : DB) (t : String) (A : Folder)
    (hA : A ∈ db.folders) (hAt : A.tenantId = t)
    (hnodup : (db.folders.map Folder.id).Nodup) :
    findFolder db A.id t = some A := by
  unfold findFolder
  exact find?_id_self db.folders t A hA hAt hnodup

/-- Unfolding equation of `listDescendants` once the pivot is found. -/
theorem listDescendants_found (db : DB) (t pid : String) (p : Folder)
    (hp : findFolder db pid t = some p) :
    listDescendants db t pid = Except.ok ((List.insertionSort pathLe
      (db.folders.filter fun g => ltreeContains p.path g.path &&
        g.id != pid && g.tenantId == t)).map fun g =>
      { id := g.id, name := g.name, path := g.path,
        depth := (nlevel g.path : Int) - (nlevel p.path : Int) }) := by
  unfold listDescendants
  rw [hp]

/-- Unfolding equation of `listAncestors` once the pivot is found. -/
theorem listAncestors_found (db : DB) (t pid : String) (p : Folder)
    (hp : findFolder db pid t = some p) :
    listAncestors db t pid = Except.ok ((List.insertionSort levelLe
      (db.folders.filter fun g => ltreeContains g.path p.path &&
        g.tenantId == t)).map fun g =>
      { id := g.id, name := g.name, path := g.path,
        depth := (nlevel g.path : Int) }) := by
  unfold listAncestors
  rw [hp]

/-- Claim C8: for an existing pivot, listDescendants returns exactly the
folders of the pivot's tenant whose segment list extends the pivot's (the
pivot itself excluded by id), each with depth equal to the difference of
segment counts, ordered by path ascending. -/
theorem listDescendants_spec (db : DB) (t pid : String) (p : Folder)
    (hp : findFolder db pid t = some p) :
    ∃ rows, listDescendants db t pid = Except.ok rows ∧
      (∀ r, r ∈ rows ↔ ∃ g ∈ db.folders, g.tenantId = t ∧
        segs p.path <+: segs g.path ∧ g.id ≠ pid ∧
        r = { id := g.id, name := g.name, path := g.path,
              depth := (nlevel g.path : Int) - (nlevel p.path : Int) }) ∧
      rows.Pairwise (fun r s => segs r.path ≤ segs s.path) := by
  refine ⟨_, listDescendants_found db t pid p hp, ?_, ?_⟩
  · intro r
    constructor
    · intro hr
      obtain ⟨g, hg, hgr⟩ := List.mem_map.1 hr
      obtain ⟨hmem, hpred⟩ :=
        List.mem_filter.1 ((List.mem_insertionSort _).1 hg)
      simp only [Bool.and_eq_true, beq_iff_eq, bne_iff_ne, ltreeContains,
        List.isPrefixOf_iff_prefix] at hpred
      exact ⟨g, hmem, hpred.2, hpred.1.1, hpred.1.2, hgr.symm⟩
    · rintro ⟨g, hmem, ht, hpre, hid, hr⟩
      refine List.mem_map.2 ⟨g, ?_, hr.symm⟩
      refine (List.mem_insertionSort _).2 (List.mem_filter.2 ⟨hmem, ?_⟩)
      simp only [Bool.and_eq_true, beq_iff_eq, bne_iff_ne, ltreeContains,
        List.isPrefixOf_iff_prefix]
      exact ⟨⟨hpre, hid⟩, ht⟩
  · have hs := List.sorted_insertionSort pathLe
      (db.folders.filter fun g => ltreeContains p.path g.path &&
        g.id != pid && g.tenantId == t)
    exact List.Pairwise.map _ (fun a b hab => hab) hs

/-- Witness for C8: the descendants of the sample root. -/
theorem listDescendants_spec_witness :
    ∃ rows, listDescendants dbA "ta" "ra" = Except.ok rows ∧
      (∀ r, r ∈ rows ↔ ∃ g ∈ dbA.folders, g.tenantId = "ta" ∧
        segs rootA.path <+: segs g.path ∧ g.id ≠ "ra" ∧
        r = { id := g.id, name := g.name, path := g.path,
              depth := (nlevel g.path : Int) - (nlevel rootA.path : Int) }) ∧
      rows.Pairwise (fun r s => segs r.path ≤ segs s.path) :=
  listDescendants_spec dbA "ta" "ra" rootA (by decide)

/-- Claim C7 counterexample: with a single root folder and A = B = root, the
root appears in its own ancestor list but not in its own descendant list, so
the claimed equivalence fails in the case A = B. -/
theorem duality_self_counterexample :
    listDescendants dbSolo "ta" "ra" = Except.ok [] ∧
    listAncestors dbSolo "ta" "ra" = Except.ok [rootRowOut] ∧
    ¬((∃ r ∈ ([] : List FolderRowOut), r.id = "ra") ↔
      (∃ r ∈ [rootRowOut], r.id = "ra")) := by
  refine ⟨by decide, by decide, by decide⟩

/-- Claim C7 (amended): for two DISTINCT folders A, B of the same tenant, B
appears in listDescendants(A) iff A appears in listAncestors(B), and the two
depths add up to the segment count of B's path (listDescendants reports
depth relative to the pivot, listAncestors reports absolute depth).  For
A = B the equivalence fails, because listDescendants excludes the pivot row
while listAncestors includes it. -/
theorem desc_anc_duality (db : DB) (t : String) (A B : Folder)
    (hA : A ∈ db.folders) (hB : B ∈ db.folders)
    (hAt : A.tenantId = t) (hBt : B.tenantId = t) (hne : A.id ≠ B.id)
    (hnodup : (db.folders.map Folder.id).Nodup) :
    ∃ dRows aRows, listDescendants db t A.id = Except.ok dRows ∧
      listAncestors db t B.id = Except.ok aRows ∧
      ((∃ r ∈ dRows, r.id = B.id) ↔ (∃ r ∈ aRows, r.id = A.id)) ∧
      (∀ rd ∈ dRows, rd.id = B.id → ∀ ra ∈ aRows, ra.id = A.id →
        rd.depth + ra.depth = (nlevel B.path : Int)) := by
  have hfA : findFolder db A.id t = some A :=
    findFolder_self db t A hA hAt hnodup
  have hfB : findFolder db B.id t = some B :=
    findFolder_self db t B hB hBt hnodup
  refine ⟨_, _, listDescendants_found db t A.id A hfA,
    listAncestors_found db t B.id B hfB, ?_, ?_⟩
  · constructor
    · rintro ⟨r, hr, hrid⟩
      obtain ⟨g, hg, hgr⟩ := List.mem_map.1 hr
      obtain ⟨hmem, hpred⟩ :=
        List.mem_filter.1 ((List.mem_insertionSort _).1 hg)
      have hgb : g = B := by
        apply List.inj_on_of_nodup_map hnodup hmem hB
        have hgid : g.id = r.id := congrArg FolderRowOut.id hgr
        rw [hgid, hrid]
      rw [hgb] at hpred
      simp only [Bool.and_eq_true] at hpred
      refine ⟨{ id := A.id, name := A.name, path := A.path, depth := (nlevel A.path : Int) }, ?_, rfl⟩
      refine List.mem_map.2 ⟨A, (List.mem_insertionSort _).2
        (List.mem_filter.2 ⟨hA, ?_⟩), rfl⟩
      simp only [Bool.and_eq_true, beq_iff_eq]
      exact ⟨hpred.1.1, hAt⟩
    · rintro ⟨r, hr, hrid⟩
      obtain ⟨g, hg, hgr⟩ := List.mem_map.1 hr
      obtain ⟨hmem, hpred⟩ :=
        List.mem_filter.1 ((List.mem_insertionSort _).1 hg)
      have hga : g = A := by
        apply List.inj_on_of_nodup_map hnodup hmem hA
        have hgid : g.id = r.id := congrArg FolderRowOut.id hgr
        rw [hgid, hrid]
      rw [hga] at hpred
      simp only [Bool.and_eq_true] at hpred
      refine ⟨{ id := B.id, name := B.name, path := B.path, depth := (nlevel B.path : Int) - (nlevel A.path : Int) }, ?_, rfl⟩
      refine List.mem_map.2 ⟨B, (List.mem_insertionSort _).2
        (List.mem_filter.2 ⟨hB, ?_⟩), rfl⟩
      simp only [Bool.and_eq_true, beq_iff_eq, bne_iff_ne]
      exact ⟨⟨hpred.1, Ne.symm hne⟩, hBt⟩
  · intro rd hrd hrdid ra hra hraid
    obtain ⟨g, hg, hgr⟩ := List.mem_map.1 hrd
    obtain ⟨hmem, _⟩ := List.mem_filter.1 ((List.mem_insertionSort _).1 hg)
    have hgb : g = B := by
      apply List.inj_on_of_nodup_map hnodup hmem hB
      have hgid : g.id = rd.id := congrArg FolderRowOut.id hgr
      rw [hgid, hrdid]
    obtain ⟨g2, hg2, hgr2⟩ := List.mem_map.1 hra
    obtain ⟨hmem2, _⟩ := List.mem_filter.1 ((List.mem_insertionSort _).1 hg2)
    have hga : g2 = A := by
      apply List.inj_on_of_nodup_map hnodup hmem2 hA
      have hgid : g2.id = ra.id := congrArg FolderRowOut.id hgr2
      rw [hgid, hraid]
    have hd : rd.depth = (nlevel B.path : Int) - (nlevel A.path : Int) := by
      rw [← hgr, hgb]
    have ha : ra.depth = (nlevel A.path : Int) := by
      rw [← hgr2, hga]
    rw [hd, ha]
    exact sub_add_cancel _ _

/-- Witness for the amended C7 theorem: A = the sample root, B = the
grandchild folder. -/
theorem desc_anc_duality_witness :
    ∃ dRows aRows, listDescendants dbA "ta" rootA.id = Except.ok dRows ∧
      listAncestors dbA "ta" grandA.id = Except.ok aRows ∧
      ((∃ r ∈ dRows, r.id = grandA.id) ↔ (∃ r ∈ aRows, r.id = rootA.id)) ∧
      (∀ rd ∈ dRows, rd.id = grandA.id → ∀ ra ∈ aRows, ra.id = rootA.id →
        rd.depth + ra.depth = (nlevel grandA.path : Int)) :=
  desc_anc_duality dbA "ta" rootA grandA (by decide) (by decide)
    (by decide) (by decide) (by decide) (by decide)

end FsTree
